import Mathlib

/-!
Verification development for the WavelengthCalibrationTool repository
(`WavelengthCalibrationTool/recalibrate.py`).

The Python source is shallowly embedded over exact real arithmetic:
NumPy float arrays become `List ℝ`, NumPy float scalars become `ℝ`, Python
dictionaries become association lists, and fallible code returns `Except`.
External library routines (SciPy optimizers, spline interpolation, and the
`numpy.polynomial` fitting/evaluation helpers) are uninterpreted functions
collected in an `Ext` structure: the repository treats them as black boxes,
so every theorem below quantifies over them.  Division follows Lean's
`x / 0 = 0` convention where the floating-point code would produce
non-finite values.
-/

noncomputable section

/-! ### NumPy style helpers -/

/-- Euclidean norm of a vector, `np.linalg.norm`: the square root of the
sum of squares of the entries. -/
def npNorm (v : List ℝ) : ℝ :=
  Real.sqrt ((v.map (fun x => x ^ 2)).sum)

/-- `np.linspace a b n`: `n` evenly spaced samples from `a` to `b`,
endpoints included. -/
def npLinspace (a b : ℝ) (n : Nat) : List ℝ :=
  (List.range n).map (fun i => a + (b - a) * i / (n - 1))

/-- Minimum of a list of reals (Python `min`); `0` on the empty list, where
Python would raise. -/
def listMin : List ℝ → ℝ
  | [] => 0
  | x :: xs => xs.foldl min x

/-- Maximum of a list of reals (Python `max`); `0` on the empty list, where
Python would raise. -/
def listMax : List ℝ → ℝ
  | [] => 0
  | x :: xs => xs.foldl max x

/-- `scipy.constants.speed_of_light` in m/s. -/
def speed_of_light : ℝ := 299792458

/-! ### CoordinateScaler: `scale_interval_m1top1` -/

/-- Embedding of `scale_interval_m1top1(x, a, b, inverse_scale)`: scales
`x` in the interval `a..b` to the range `-1..1`, or back when
`inverse_scale` is set. -/
def scale_interval_m1top1 (x a b : ℝ) (inverse_scale : Bool) : ℝ :=
  if inverse_scale then ((b - a) * x + a + b) / 2
  else (2 * x - (b + a)) / (b - a)

/-! ### LegendreCoefficientTransform -/

/-- Embedding of `LCTransformMatrixP(p, deg)` as an entry function.  The
Python code starts from `np.identity(deg+1)` and overwrites, for every row
`i` and every column `j` in `range(i+1, deg+1, 2)`, the entry with
`p*(i*2+1)`; each entry is written at most once, so the final matrix is
given pointwise by this conditional (entries outside the
`(deg+1)×(deg+1)` block are `0`). -/
def LCTransformMatrixP (p : ℝ) (deg : Nat) : Nat → Nat → ℝ := fun i j =>
  if i < j ∧ j ≤ deg ∧ (j - i) % 2 = 1 then p * (2 * i + 1)
  else if i = j ∧ j ≤ deg then 1
  else 0

/-- Row `i` of matrix `M` dotted with vector `v`, summing the first `n`
columns (missing entries of `v` read as `0`, as NumPy would error instead). -/
def dotRow (M : Nat → Nat → ℝ) (n : Nat) (v : List ℝ) (i : Nat) : ℝ :=
  ∑ j ∈ Finset.range n, M i j * v.getD j 0

/-- `np.matmul` of an `n×n` matrix (given as an entry function) with a
length-`n` vector. -/
def matVecMul (M : Nat → Nat → ℝ) (n : Nat) (v : List ℝ) : List ℝ :=
  (List.range n).map (dotRow M n v)

/-- The role map `PVWdic` of the Python code, holding the pixel shift `p`,
the velocity shift `v` and the wavelength shift `w`.  The Python dictionary
lookups `PVWdic['p']`, `PVWdic['v']`, `PVWdic['w']` are modelled as total
field projections; key presence is checked at the call sites in the driver
and error-function embeddings. -/
structure PVWdic where
  p : ℝ
  v : ℝ
  w : ℝ

/-- Line 47-49 of the source: `w = np.zeros(ldeg+1); w[0] = PVWdic['w'];
T_LC = LC + w`, i.e. elementwise addition of the vector `(w, 0, ..., 0)`. -/
def wShift (LC : List ℝ) (w : ℝ) : List ℝ :=
  List.zipWith (fun a b => a + b) LC (w :: List.replicate (LC.length - 1) 0)

/-- Line 52-54 of the source: multiply the wavelength-shifted coefficients
by the pixel-shift transform matrix. -/
def pixelShift (T_LC : List ℝ) (p : ℝ) (ldeg : Nat) : List ℝ :=
  matVecMul (LCTransformMatrixP p ldeg) (ldeg + 1) T_LC

/-- Line 55-57 of the source: `T_LC /= np.linalg.norm(T_LC)/Original_norm`,
the degeneracy-breaking renormalization. -/
def normPRescale (v : List ℝ) (Original_norm : ℝ) : List ℝ :=
  v.map (fun x => x / (npNorm v / Original_norm))

/-- Embedding of `TransformLegendreCoeffs(LC, PVWdic, normP)`: wavelength
shift, pixel-shift matrix multiplication, optional degeneracy-breaking
renormalization, velocity scaling. -/
def TransformLegendreCoeffs (LC : List ℝ) (PVW : PVWdic) (normP : Bool) :
    List ℝ :=
  let ldeg := LC.length - 1
  let T_LC := wShift LC PVW.w
  let Original_norm := npNorm T_LC
  let T_LC2 := pixelShift T_LC PVW.p ldeg
  let T_LC3 := if normP then normPRescale T_LC2 Original_norm else T_LC2
  T_LC3.map (fun x => x * (1 + PVW.v))

/-! ### Spec-side description of the Legendre coefficient transform

These definitions follow the wording of the specification (section 4.4 and
claim C1), to be compared with the source embedding above. -/

/-- Spec step 2 matrix: `TM[i,i] = 1` and `TM[i,j] = p*(2i+1)` for all
`j > i` with `j - i` odd; all other entries `0`. -/
def specTM (p : ℝ) : Nat → Nat → ℝ := fun i j =>
  if i = j then 1
  else if i < j ∧ (j - i) % 2 = 1 then p * (2 * i + 1)
  else 0

/-- Spec step 1: add `w` to the degree-0 coefficient only. -/
def specWavelengthShift (LC : List ℝ) (w : ℝ) : List ℝ :=
  match LC with
  | [] => []
  | c0 :: rest => (c0 + w) :: rest

/-- Spec-side transform, following the claim's wording: (1) add `w` to the
degree-0 coefficient only; (2) multiply by the `(ldeg+1)×(ldeg+1)` matrix
`specTM`; (3) if `normP`, rescale so the norm equals the norm before step
2; (4) multiply every coefficient by `1 + v`. -/
def specTransformLegendreCoeffs (LC : List ℝ) (PVW : PVWdic) (normP : Bool) :
    List ℝ :=
  let step1 := specWavelengthShift LC PVW.w
  let step2 := matVecMul (specTM PVW.p) LC.length step1
  let step3 := if normP then step2.map (fun x => x * (npNorm step1 / npNorm step2)) else step2
  step3.map (fun x => x * (1 + PVW.v))

/-! ### Basic lemmas about the helpers -/

theorem zipWith_add_replicate_zero (r : List ℝ) :
    List.zipWith (fun a b => a + b) r (List.replicate r.length 0) = r := by
  induction r with
  | nil => rfl
  | cons x xs ih => simp [List.replicate_succ, ih]

theorem wShift_cons (c : ℝ) (r : List ℝ) (w : ℝ) :
    wShift (c :: r) w = (c + w) :: r := by
  simp [wShift, zipWith_add_replicate_zero]

theorem wShift_eq_specWavelengthShift (LC : List ℝ) (w : ℝ) :
    wShift LC w = specWavelengthShift LC w := by
  cases LC with
  | nil => rfl
  | cons c r => rw [wShift_cons]; rfl

theorem wShift_length (LC : List ℝ) (w : ℝ) : (wShift LC w).length = LC.length := by
  cases LC with
  | nil => rfl
  | cons c r => rw [wShift_cons]; simp

theorem matVecMul_length (M : Nat → Nat → ℝ) (n : Nat) (v : List ℝ) :
    (matVecMul M n v).length = n := by
  simp [matVecMul]

theorem matVecMul_congr (M N : Nat → Nat → ℝ) (n : Nat) (v : List ℝ)
    (h : ∀ i < n, ∀ j < n, M i j = N i j) :
    matVecMul M n v = matVecMul N n v := by
  unfold matVecMul
  refine List.map_congr_left (fun i hi => ?_)
  have hi' : i < n := List.mem_range.mp hi
  unfold dotRow
  refine Finset.sum_congr rfl (fun j hj => ?_)
  rw [h i hi' j (Finset.mem_range.mp hj)]

theorem map_range_getD (v : List ℝ) :
    (List.range v.length).map (fun i => v.getD i 0) = v := by
  induction v with
  | nil => rfl
  | cons c r ih =>
    rw [List.length_cons, List.range_succ_eq_map, List.map_cons, List.map_map]
    have hcomp : ((fun i => (c :: r).getD i 0) ∘ Nat.succ) = fun i => r.getD i 0 := by
      funext i
      simp [List.getD_cons_succ]
    rw [List.getD_cons_zero, hcomp, ih]

theorem matVecMul_id (v : List ℝ) (n : Nat) (hn : v.length = n)
    (M : Nat → Nat → ℝ) (hM : ∀ i < n, ∀ j < n, M i j = if j = i then 1 else 0) :
    matVecMul M n v = v := by
  unfold matVecMul
  have : ∀ i ∈ List.range n, dotRow M n v i = v.getD i 0 := by
    intro i hi
    have hi' : i < n := List.mem_range.mp hi
    unfold dotRow
    have hcongr : ∀ j ∈ Finset.range n,
        M i j * v.getD j 0 = if j = i then v.getD j 0 else 0 := by
      intro j hj
      rw [hM i hi' j (Finset.mem_range.mp hj)]
      by_cases hji : j = i <;> simp [hji]
    rw [Finset.sum_congr rfl hcongr, Finset.sum_ite_eq' (Finset.range n) i]
    simp [hi']
  rw [List.map_congr_left this, ← hn, map_range_getD]

theorem list_sum_map_div (l : List ℝ) (c : ℝ) :
    (l.map (fun x => x / c)).sum = l.sum / c := by
  induction l with
  | nil => simp
  | cons x xs ih => simp [ih, div_add_div_same]

theorem sum_sq_nonneg (l : List ℝ) : 0 ≤ (l.map (fun x => x ^ 2)).sum := by
  refine List.sum_nonneg (fun x hx => ?_)
  obtain ⟨y, _, rfl⟩ := List.mem_map.mp hx
  exact sq_nonneg y

theorem npNorm_nonneg (v : List ℝ) : 0 ≤ npNorm v :=
  Real.sqrt_nonneg _

theorem sum_sq_eq_zero_forall (l : List ℝ)
    (h : (l.map (fun x => x ^ 2)).sum = 0) : ∀ x ∈ l, x = 0 := by
  induction l with
  | nil => intro x hx; cases hx
  | cons y ys ih =>
    rw [List.map_cons, List.sum_cons] at h
    have hy : y ^ 2 = 0 := by nlinarith [sq_nonneg y, sum_sq_nonneg ys]
    have hys : (ys.map (fun x => x ^ 2)).sum = 0 := by
      nlinarith [sq_nonneg y, sum_sq_nonneg ys]
    intro x hx
    cases hx with
    | head => exact (pow_eq_zero_iff two_ne_zero).mp hy
    | tail _ hmem => exact ih hys x hmem

theorem npNorm_eq_zero_forall (v : List ℝ) (h : npNorm v = 0) :
    ∀ x ∈ v, x = 0 := by
  have hsum : (v.map (fun x => x ^ 2)).sum = 0 := by
    have hle : (v.map (fun x => x ^ 2)).sum ≤ 0 :=
      Real.sqrt_eq_zero'.mp h
    exact le_antisymm hle (sum_sq_nonneg v)
  exact sum_sq_eq_zero_forall v hsum

theorem npNorm_map_div (v : List ℝ) (d : ℝ) :
    npNorm (v.map (fun x => x / d)) = npNorm v / |d| := by
  unfold npNorm
  rw [List.map_map]
  have h1 : (fun x => x ^ 2) ∘ (fun x => x / d) = fun x => x ^ 2 / d ^ 2 := by
    funext x
    simp [Function.comp, div_pow]
  rw [h1]
  have h2 : (v.map (fun x => x ^ 2 / d ^ 2)).sum = (v.map (fun x => x ^ 2)).sum / d ^ 2 := by
    rw [← list_sum_map_div, List.map_map]
    rfl
  rw [h2, Real.sqrt_div (sum_sq_nonneg v), Real.sqrt_sq_eq_abs]

/-! ### Claim C7: scaler round trip -/

/-- Claim C7: for every `x` and every pair `a ≠ b`, applying the coordinate
scaler and then its inverse returns the original value exactly. -/
theorem scale_interval_roundtrip (x a b : ℝ) (h : a ≠ b) :
    scale_interval_m1top1 (scale_interval_m1top1 x a b false) a b true = x := by
  have hba : b - a ≠ 0 := sub_ne_zero.mpr (Ne.symm h)
  unfold scale_interval_m1top1
  simp only [if_true, if_false, Bool.false_eq_true]
  field_simp
  ring

/-- Witness for C7 at `x = 5`, `a = 1`, `b = 3`. -/
theorem scale_interval_roundtrip_witness :
    (1 : ℝ) ≠ 3 ∧
      scale_interval_m1top1 (scale_interval_m1top1 5 1 3 false) 1 3 true = 5 :=
  ⟨by norm_num, scale_interval_roundtrip 5 1 3 (by norm_num)⟩

/-! ### Claim C1: the Legendre coefficient transform performs the four spec steps -/

theorem LCTransformMatrixP_eq_specTM (p : ℝ) (deg i j : Nat) (hj : j ≤ deg) :
    LCTransformMatrixP p deg i j = specTM p i j := by
  unfold LCTransformMatrixP specTM
  by_cases hij : i = j
  · subst hij
    simp [Nat.lt_irrefl, hj]
  · by_cases hlt : i < j
    · by_cases hodd : (j - i) % 2 = 1
      · simp [hij, hlt, hodd, hj]
      · simp [hij, hlt, hodd]
    · simp [hij, hlt]

theorem div_div_ratio (x nA nB : ℝ) : x / (nA / nB) = x * (nB / nA) := by
  rw [div_div_eq_mul_div, mul_div_assoc]

theorem transformLegendreCoeffs_length (LC : List ℝ) (PVW : PVWdic) (normP : Bool)
    (h : LC ≠ []) :
    (TransformLegendreCoeffs LC PVW normP).length = LC.length := by
  have hpos : 0 < LC.length := List.length_pos.mpr h
  unfold TransformLegendreCoeffs
  cases normP <;> simp [normPRescale, pixelShift, matVecMul_length] <;> omega

/-- Claim C1: for every nonempty Legendre coefficient vector `LC` and every
role map, `TransformLegendreCoeffs` returns a vector of the same length
and performs, in this fixed order: (1) add `w` to the degree-0 coefficient
only; (2) multiply by the `(ldeg+1)×(ldeg+1)` matrix with `TM[i,i] = 1`
and `TM[i,j] = p*(2i+1)` for `j > i` with `j - i` odd; (3) if `normP`,
rescale so the norm equals the norm before step 2; (4) multiply every
coefficient by `1 + v` — that is, it agrees with the spec-side
`specTransformLegendreCoeffs`. -/
theorem transformLegendreCoeffs_spec_steps (LC : List ℝ) (PVW : PVWdic)
    (normP : Bool) (h : LC ≠ []) :
    TransformLegendreCoeffs LC PVW normP = specTransformLegendreCoeffs LC PVW normP ∧
    (TransformLegendreCoeffs LC PVW normP).length = LC.length := by
  refine ⟨?_, transformLegendreCoeffs_length LC PVW normP h⟩
  have hpos : 0 < LC.length := List.length_pos.mpr h
  have hT : wShift LC PVW.w = specWavelengthShift LC PVW.w :=
    wShift_eq_specWavelengthShift LC PVW.w
  have hmat : pixelShift (wShift LC PVW.w) PVW.p (LC.length - 1)
      = matVecMul (specTM PVW.p) LC.length (specWavelengthShift LC PVW.w) := by
    unfold pixelShift
    have hn : LC.length - 1 + 1 = LC.length := by omega
    rw [hn, hT]
    exact matVecMul_congr _ _ _ _ (fun i _ j hj =>
      LCTransformMatrixP_eq_specTM PVW.p (LC.length - 1) i j (by omega))
  show (if normP then
          normPRescale (pixelShift (wShift LC PVW.w) PVW.p (LC.length - 1))
            (npNorm (wShift LC PVW.w))
        else pixelShift (wShift LC PVW.w) PVW.p (LC.length - 1)).map
          (fun x => x * (1 + PVW.v))
      = (if normP then
          (matVecMul (specTM PVW.p) LC.length (specWavelengthShift LC PVW.w)).map
            (fun x => x * (npNorm (specWavelengthShift LC PVW.w) /
              npNorm (matVecMul (specTM PVW.p) LC.length (specWavelengthShift LC PVW.w))))
        else matVecMul (specTM PVW.p) LC.length (specWavelengthShift LC PVW.w)).map
          (fun x => x * (1 + PVW.v))
  cases normP with
  | false => rw [hmat]; simp
  | true =>
    rw [hmat, hT]
    simp only [if_pos rfl]
    congr 1
    unfold normPRescale
    exact List.map_congr_left (fun x _ => div_div_ratio x _ _)

/-- Witness for C1 at `LC = [1, 2]`, roles `p = v = w = 1`, `normP = false`. -/
theorem transformLegendreCoeffs_spec_steps_witness :
    ([1, 2] : List ℝ) ≠ [] ∧
      (TransformLegendreCoeffs [1, 2] ⟨1, 1, 1⟩ false
          = specTransformLegendreCoeffs [1, 2] ⟨1, 1, 1⟩ false ∧
        (TransformLegendreCoeffs [1, 2] ⟨1, 1, 1⟩ false).length
          = ([1, 2] : List ℝ).length) :=
  ⟨by simp, transformLegendreCoeffs_spec_steps [1, 2] ⟨1, 1, 1⟩ false (by simp)⟩

/-! ### Claim C3: the transform with all-zero roles is the exact identity -/

theorem wShift_zero (LC : List ℝ) : wShift LC 0 = LC := by
  cases LC with
  | nil => rfl
  | cons c r => rw [wShift_cons, add_zero]

theorem LCTransformMatrixP_zero (deg i j : Nat) (hj : j ≤ deg) :
    LCTransformMatrixP 0 deg i j = if j = i then 1 else 0 := by
  unfold LCTransformMatrixP
  by_cases hij : i = j
  · subst hij
    simp [Nat.lt_irrefl, hj]
  · have hji : ¬ j = i := fun hji => hij hji.symm
    by_cases hc : i < j ∧ j ≤ deg ∧ (j - i) % 2 = 1
    · simp [hc, hij, hji]
    · simp [hc, hij, hji]

theorem normPRescale_self (v : List ℝ) : normPRescale v (npNorm v) = v := by
  unfold normPRescale
  by_cases hz : npNorm v = 0
  · have hall := npNorm_eq_zero_forall v hz
    have hmap : ∀ x ∈ v, x / (npNorm v / npNorm v) = x := by
      intro x hx
      rw [hall x hx, zero_div]
    calc v.map (fun x => x / (npNorm v / npNorm v))
        = v.map id := List.map_congr_left hmap
      _ = v := List.map_id v
  · rw [div_self hz]
    simp

/-- Claim C3: for every nonempty coefficient vector `LC`,
`TransformLegendreCoeffs LC {p:0, v:0, w:0}` returns `LC` unchanged,
exactly, regardless of the `normP` flag. -/
theorem transformLegendreCoeffs_identity (LC : List ℝ) (normP : Bool)
    (h : LC ≠ []) :
    TransformLegendreCoeffs LC ⟨0, 0, 0⟩ normP = LC := by
  have hpos : 0 < LC.length := List.length_pos.mpr h
  have hw : wShift LC (0 : ℝ) = LC := wShift_zero LC
  have hmat : pixelShift LC 0 (LC.length - 1) = LC := by
    unfold pixelShift
    refine matVecMul_id LC (LC.length - 1 + 1) (by omega) _ (fun i _ j hj => ?_)
    exact LCTransformMatrixP_zero (LC.length - 1) i j (by omega)
  show (if normP then
          normPRescale (pixelShift (wShift LC 0) 0 (LC.length - 1))
            (npNorm (wShift LC 0))
        else pixelShift (wShift LC 0) 0 (LC.length - 1)).map
          (fun x => x * (1 + 0))
      = LC
  rw [hw, hmat]
  cases normP with
  | false => simp
  | true => rw [if_pos rfl, normPRescale_self]; simp

/-- Witness for C3 at `LC = [2, 5]` with `normP = true`. -/
theorem transformLegendreCoeffs_identity_witness :
    ([2, 5] : List ℝ) ≠ [] ∧
      TransformLegendreCoeffs [2, 5] ⟨0, 0, 0⟩ true = [2, 5] :=
  ⟨by simp, transformLegendreCoeffs_identity [2, 5] true (by simp)⟩

/-! ### Claim C2: degeneracy-breaking renormalization -/

/-- Lines 166-168 and 338-340 of the source (the same three lines occur in
both `errorfunc_tominimise` and `ReCalibrateDispersionSolution`):
`normP = ('p' in paramstring) and ('v' in paramstring)`. -/
def legendreNormPFlag (paramstring : List Char) : Bool :=
  paramstring.contains 'p' && paramstring.contains 'v'

/-- Claim C2: the degeneracy-breaking renormalization flag is set exactly
when both the `p` and `v` roles are simultaneously fit, and in that case
the norm of the pixel-shifted coefficient vector after the rescaling step
(before velocity scaling) equals the norm of the wavelength-shifted input
vector (the norm before the pixel-shift matrix multiplication), provided
the pixel-shifted vector has nonzero norm. -/
theorem legendre_degeneracy_norm_preservation (paramstring : List Char)
    (LC : List ℝ) (PVW : PVWdic)
    (h : npNorm (pixelShift (wShift LC PVW.w) PVW.p (LC.length - 1)) ≠ 0) :
    (legendreNormPFlag paramstring = true ↔
      'p' ∈ paramstring ∧ 'v' ∈ paramstring) ∧
    npNorm (normPRescale (pixelShift (wShift LC PVW.w) PVW.p (LC.length - 1))
        (npNorm (wShift LC PVW.w)))
      = npNorm (wShift LC PVW.w) := by
  constructor
  · simp [legendreNormPFlag, List.elem_iff]
  · set A := pixelShift (wShift LC PVW.w) PVW.p (LC.length - 1) with hA
    set nB := npNorm (wShift LC PVW.w) with hnB
    unfold normPRescale
    rw [npNorm_map_div]
    have habs : |npNorm A / nB| = npNorm A / nB :=
      abs_of_nonneg (div_nonneg (npNorm_nonneg A) (npNorm_nonneg _))
    rw [habs]
    by_cases hB : nB = 0
    · rw [hB, div_zero, div_zero]
    · rw [div_div_eq_mul_div, mul_comm, mul_div_assoc, div_self h, mul_one]

/-- Witness for C2 at `paramstring = ['p','v']`, `LC = [1]`, zero roles. -/
theorem legendre_degeneracy_norm_preservation_witness :
    npNorm (pixelShift (wShift [1] (0 : ℝ)) 0 (([1] : List ℝ).length - 1)) ≠ 0 ∧
      ((legendreNormPFlag ['p', 'v'] = true ↔
          'p' ∈ (['p', 'v'] : List Char) ∧ 'v' ∈ (['p', 'v'] : List Char)) ∧
        npNorm (normPRescale
            (pixelShift (wShift [1] (0 : ℝ)) 0 (([1] : List ℝ).length - 1))
            (npNorm (wShift [1] (0 : ℝ))))
          = npNorm (wShift [1] (0 : ℝ))) := by
  have hnz : npNorm (pixelShift (wShift [1] (0 : ℝ)) 0
      (([1] : List ℝ).length - 1)) ≠ 0 := by
    have h1 : wShift [1] (0 : ℝ) = [1] := wShift_zero [1]
    have h2 : pixelShift [1] (0 : ℝ) 0 = [1] := by
      unfold pixelShift
      exact matVecMul_id [1] 1 rfl _ (fun i hi j hj => by
        interval_cases i
        interval_cases j
        simp [LCTransformMatrixP_zero 0 0 0 le_rfl])
    simp only [List.length_singleton]
    rw [h1, h2]
    unfold npNorm
    norm_num
  exact ⟨hnz, legendre_degeneracy_norm_preservation ['p', 'v'] [1] ⟨0, 0, 0⟩ hnz⟩

/-! ### Python runtime model: errors and dictionaries -/

/-- Python exceptions that the embedded code can raise. -/
inductive PyErr where
  | notImplemented
  | indexError
  | typeError
  | keyError
  | valueError
  | nameError
  | unboundLocal
deriving DecidableEq

/-- Python dictionary keys used by the source: integer coefficient indices
(in `update_coeffs_with_defaults`) or single-character role names
(`'p'`, `'v'`, `'w'` in the Legendre code paths). -/
inductive PyKey where
  | idx : Nat → PyKey
  | role : Char → PyKey
deriving DecidableEq

/-- A Python dictionary with real values, as an association list with
unique keys (the first binding for a key is its value). -/
abbrev PyDict := List (PyKey × ℝ)

/-- Dictionary read `d[k]`, `none` modelling a `KeyError`. -/
def dictLookup : PyDict → PyKey → Option ℝ
  | [], _ => none
  | (k', v) :: rest, k => if k' = k then some v else dictLookup rest k

/-- Dictionary write `d[k] = v` (update in place or insert). -/
def dictSet : PyDict → PyKey → ℝ → PyDict
  | [], k, v => [(k, v)]
  | (k', v') :: rest, k, v =>
    if k' = k then (k, v) :: rest else (k', v') :: dictSet rest k v

theorem dictLookup_dictSet_self (d : PyDict) (k : PyKey) (v : ℝ) :
    dictLookup (dictSet d k v) k = some v := by
  induction d with
  | nil => simp [dictSet, dictLookup]
  | cons kv rest ih =>
    obtain ⟨k', v'⟩ := kv
    by_cases h : k' = k
    · simp [dictSet, h, dictLookup]
    · simp [dictSet, h, dictLookup, ih]

theorem dictLookup_dictSet_ne (d : PyDict) (k k' : PyKey) (v : ℝ)
    (h : k' ≠ k) : dictLookup (dictSet d k v) k' = dictLookup d k' := by
  induction d with
  | nil => simp [dictSet, dictLookup, Ne.symm h]
  | cons kv rest ih =>
    obtain ⟨k'', v''⟩ := kv
    by_cases hk : k'' = k
    · subst hk
      simp [dictSet, dictLookup, Ne.symm h]
    · by_cases hk' : k'' = k'
      · simp [dictSet, dictLookup, hk, hk', h]
      · simp [dictSet, dictLookup, hk, hk', ih]

theorem dictLookup_dictSet_isSome (d : PyDict) (k k' : PyKey) (v : ℝ)
    (h : (dictLookup d k').isSome) :
    (dictLookup (dictSet d k v) k').isSome := by
  by_cases hk : k' = k
  · subst hk
    rw [dictLookup_dictSet_self]
    rfl
  · rw [dictLookup_dictSet_ne d k k' v hk]
    exact h

/-! ### `update_coeffs_with_defaults` -/

/-- Insert a natural number into an ascending sorted list. -/
def insertSorted (n : Nat) : List Nat → List Nat
  | [] => [n]
  | m :: ms => if n ≤ m then n :: m :: ms else m :: insertSorted n ms

/-- Insertion sort, modelling Python `sorted` on integer keys. -/
def sortNat (l : List Nat) : List Nat := l.foldr insertSorted []

/-- The integer keys of a dictionary. -/
def dictIdxKeys (d : PyDict) : List Nat :=
  d.filterMap (fun kv => match kv.1 with | .idx n => some n | .role _ => none)

/-- Whether a dictionary holds any non-integer (role-character) key. -/
def dictHasRoleKey (d : PyDict) : Bool :=
  d.any (fun kv => match kv.1 with | .role _ => true | .idx _ => false)

/-- Embedding of `update_coeffs_with_defaults(coeffs, defaultParamDic)`:
for each integer key in ascending order, assign `coeffs[key]`, appending
when the key equals the current length and re-raising the `IndexError`
otherwise.  A falsy (absent or empty) dictionary leaves `coeffs`
untouched; indexing a Python list with a character key raises
`TypeError`. -/
def update_coeffs_with_defaults (coeffs : List ℝ)
    (defaultParamDic : Option PyDict) : Except PyErr (List ℝ) :=
  match defaultParamDic with
  | none => .ok coeffs
  | some d =>
    if d.isEmpty then .ok coeffs
    else if dictHasRoleKey d then .error .typeError
    else
      (sortNat (dictIdxKeys d)).foldl
        (fun acc k =>
          match acc with
          | .error e => .error e
          | .ok cs =>
            let v := (dictLookup d (.idx k)).getD 0
            if k < cs.length then .ok (cs.set k v)
            else if k = cs.length then .ok (cs ++ [v])
            else .error .indexError)
        (.ok coeffs)

/-! ### External library interface

SciPy and the `numpy.polynomial` helpers are not part of this repository;
every theorem quantifies over an arbitrary interpretation of them. -/

/-- Fit-result object of `scipy.optimize.least_squares`, with the fields
the driver reads (`x`, `status`) and the Jacobian consumed by the external
covariance helper. -/
structure LsqResult where
  x : List ℝ
  jac : List (List ℝ)
  status : Int

/-- Uninterpreted external functions: `np.polynomial` evaluators and
fitters, `np.gradient`, the `splrep`/`splev` spline resampler (with and
without the `ext=3` boundary-hold flag), the two SciPy optimizers, and
the external covariance helper `calculate_cov_matrix_fromscipylsq`. -/
structure ExtLib where
  polyval : List ℝ → List ℝ → List ℝ
  chebval : List ℝ → List ℝ → List ℝ
  legval : List ℝ → List ℝ → List ℝ
  legfit : List ℝ → List ℝ → Nat → List ℝ
  gradient : List ℝ → List ℝ
  splev_ext3 : List ℝ → List ℝ → List ℝ → List ℝ
  splev : List ℝ → List ℝ → List ℝ → List ℝ
  curve_fit : (List ℝ → List ℝ → Except PyErr (Option (List ℝ))) →
    List ℝ → List ℝ → List ℝ → Option (List ℝ) → List ℝ × List (List ℝ)
  least_squares : (List ℝ → Except PyErr (Option (List ℝ))) →
    List ℝ → List ℝ → LsqResult
  calc_cov : LsqResult → List (List ℝ)

/-- A concrete, constant instance of the external interface, used by the
concrete witnesses below (the optimizers return their initial guess). -/
def trivExt : ExtLib where
  polyval := fun _ _ => []
  chebval := fun _ _ => []
  legval := fun _ _ => []
  legfit := fun _ _ _ => []
  gradient := fun _ => []
  splev_ext3 := fun _ _ _ => []
  splev := fun _ _ _ => []
  curve_fit := fun _ _ _ p0 _ => (p0, [])
  least_squares := fun _ p0 _ => ⟨p0, [], 0⟩
  calc_cov := fun _ => []

/-! ### `transformed_spectrum` -/

/-- Embedding of `transformed_spectrum(FluxSpec, *params, **kwargs)`: the
flux is scaled by `params[0]`, the remaining parameters (with a fixed unit
slope appended when only a zero-offset coefficient is fitted, and default
overrides applied) define the coordinate transformation selected by
`method`; the scaled flux is spline-resampled onto the transformed
coordinates.  An unknown method string returns Python `None`, modelled as
`.ok none`. -/
def transformed_spectrum (ext : ExtLib) (FluxSpec : List ℝ) (params : List ℝ)
    (method : List Char) (WavlCoords : Option (List ℝ))
    (defaultParamDic : Option PyDict) : Except PyErr (Option (List ℝ)) :=
  let Xoriginal := match WavlCoords with
    | some xc => xc
    | none => (List.range FluxSpec.length).map (fun i => (i : ℝ))
  let scaledFlux := FluxSpec.map (fun y => y * params.getD 0 0)
  let coeffs0 := if (params.drop 1).length = 1 then params.drop 1 ++ [1]
    else params.drop 1
  match update_coeffs_with_defaults coeffs0 defaultParamDic with
  | .error e => .error e
  | .ok coeffs =>
    if method = ['p'] then
      .ok (some (ext.splev_ext3 Xoriginal scaledFlux (ext.polyval Xoriginal coeffs)))
    else if method = ['c'] then
      .ok (some (ext.splev_ext3 Xoriginal scaledFlux (ext.chebval Xoriginal coeffs)))
    else if method = ['v'] then
      .ok (some (ext.splev_ext3 Xoriginal scaledFlux
        (Xoriginal.map (fun x => x * (1 + coeffs.getD 0 0 / speed_of_light)))))
    else if method = ['x'] then
      .ok (some (ext.splev_ext3 Xoriginal scaledFlux
        (List.zipWith
          (fun x g => x * (1 + coeffs.getD 0 0 / speed_of_light) + coeffs.getD 1 0 * g)
          Xoriginal (ext.gradient Xoriginal))))
    else .ok none

/-! ### `errorfunc_tominimise` -/

/-- The keyword arguments of `errorfunc_tominimise` beyond its named
parameters; each field is `some` exactly when the keyword was passed. -/
structure LKwargs where
  WavlCoords : Option (List ℝ)
  LCRef : Option (List ℝ)
  ldeg : Option Nat
  paramstofit : Option (List Char)

/-- The fresh role dictionary `{'v':0, 'p':0, 'w':0}` built when no
default-parameter dictionary is supplied. -/
def freshPVWDict : PyDict := [(.role 'v', 0), (.role 'p', 0), (.role 'w', 0)]

/-- Lines 159-162 (and 305-308): use the caller-supplied dictionary when
present, a fresh complete role dictionary otherwise. -/
def initialRoleDict (defaultParamDic : Option PyDict) : PyDict :=
  match defaultParamDic with
  | none => freshPVWDict
  | some d => d

/-- The loop `for i,s in enumerate(paramstring): PVWdic[s] = params[i+1]`
(lines 163-164 and 335-336), with the running index made explicit. -/
def applyFitsAux (params : List ℝ) : Nat → PyDict → List Char → PyDict
  | _, d, [] => d
  | i, d, s :: rest =>
    applyFitsAux params (i + 1) (dictSet d (.role s) (params.getD (i + 1) 0)) rest

/-- The role dictionary after recording the fitted parameters. -/
def applyFits (d : PyDict) (paramstring : List Char) (params : List ℝ) : PyDict :=
  applyFitsAux params 0 d paramstring

/-- Division of the raw flux residual by `sigma` (lines 179-181): `sigma`
is `1` when not supplied, elementwise otherwise. -/
def sigmaDiv (resid : List ℝ) (sigma : Option (List ℝ)) : List ℝ :=
  match sigma with
  | none => resid.map (fun r => r / 1)
  | some s => List.zipWith (fun r sv => r / sv) resid s

/-- Embedding of `errorfunc_tominimise(params, method, Reg, RefSpectrum,
DataToFit, sigma, defaultParamDic, **kwargs)`.  The branch at source line
157 reads the bare name `ldeg`, which is bound neither in the function's
scope nor at module level, so executing it raises `NameError` — the
caller-supplied `kwargs['ldeg']` is never read there.  An `LCRef` that
was never assigned surfaces as `UnboundLocalError` at its use site
(line 169).  The in-place updates this function performs on the shared
role dictionary only touch the fitted roles, which the driver overwrites
again after the fit, so they are not threaded through this pure model. -/
def errorfunc_tominimise (ext : ExtLib) (params : List ℝ) (method : List Char)
    (Reg : ℝ) (RefSpectrum DataToFit : List ℝ) (sigma : Option (List ℝ))
    (defaultParamDic : Option PyDict) (kw : LKwargs) :
    Except PyErr (Option (List ℝ)) :=
  let scaledFlux := RefSpectrum.map (fun y => y * params.getD 0 0)
  if method = ['l'] then
    let grid := npLinspace (-1) 1 RefSpectrum.length
    match (match kw.LCRef with
           | some lc => Except.ok (some lc)
           | none =>
             if kw.ldeg.isSome ∧ kw.WavlCoords.isSome then
               Except.error PyErr.nameError
             else Except.ok none : Except PyErr (Option (List ℝ))) with
    | .error e => .error e
    | .ok LCRefOpt =>
      let Xoriginal : Option (List ℝ) :=
        match kw.WavlCoords, LCRefOpt with
        | some xc, _ => some xc
        | none, some lc => some (ext.legval grid lc)
        | none, none => none
      match kw.paramstofit with
      | none => .error .keyError
      | some paramstring =>
        let PVWdic := applyFits (initialRoleDict defaultParamDic) paramstring params
        let normP := legendreNormPFlag paramstring
        match LCRefOpt with
        | none => .error .unboundLocal
        | some LCRef =>
          match dictLookup PVWdic (.role 'p'), dictLookup PVWdic (.role 'v'),
              dictLookup PVWdic (.role 'w') with
          | some pfit, some vfit, some wfit =>
            let LCnew := TransformLegendreCoeffs LCRef ⟨pfit, vfit, wfit⟩ normP
            let Xtransformed := ext.legval grid LCnew
            match Xoriginal with
            | none => .error .typeError
            | some Xo =>
              let PredictedSpectrum := ext.splev Xo scaledFlux Xtransformed
              .ok (some (sigmaDiv
                  (List.zipWith (fun a b => a - b) PredictedSpectrum DataToFit) sigma
                ++ (params.drop 1).map (fun t => Real.sqrt (Reg * |t|))))
          | _, _, _ => .error .keyError
  else .ok none

/-! ### Claim C4: structure of the Legendre residual vector -/

/-- The three role lookups that the Legendre branch performs on the
updated role dictionary all resolve (no `KeyError`). -/
def rolesOk (defaultParamDic : Option PyDict) (paramstring : List Char)
    (params : List ℝ) : Prop :=
  (dictLookup (applyFits (initialRoleDict defaultParamDic) paramstring params)
    (.role 'p')).isSome ∧
  (dictLookup (applyFits (initialRoleDict defaultParamDic) paramstring params)
    (.role 'v')).isSome ∧
  (dictLookup (applyFits (initialRoleDict defaultParamDic) paramstring params)
    (.role 'w')).isSome

/-- Claim C4: for the Legendre family ('l' method), the residual vector is
the concatenation of `(predicted - observed)/sigma` with
`sqrt(Reg * |params[1:]|)`: the penalty block ranges over exactly the
fitted shift parameters `params[1:]` (never the flux-scale `params[0]`),
and with `Reg = 0` the penalty block is identically zero. -/
theorem legendre_residual_structure (ext : ExtLib) (params : List ℝ) (Reg : ℝ)
    (RefSpectrum DataToFit : List ℝ) (sigma : Option (List ℝ))
    (defaultParamDic : Option PyDict) (kw : LKwargs) (lcref : List ℝ)
    (ps : List Char) (h1 : kw.LCRef = some lcref)
    (h2 : kw.paramstofit = some ps)
    (h3 : rolesOk defaultParamDic ps params) :
    (∃ PredictedSpectrum : List ℝ,
      errorfunc_tominimise ext params ['l'] Reg RefSpectrum DataToFit sigma
          defaultParamDic kw
        = .ok (some (sigmaDiv
            (List.zipWith (fun a b => a - b) PredictedSpectrum DataToFit) sigma
          ++ (params.drop 1).map (fun t => Real.sqrt (Reg * |t|))))) ∧
    (Reg = 0 →
      (params.drop 1).map (fun t => Real.sqrt (Reg * |t|))
        = List.replicate (params.length - 1) 0) := by
  obtain ⟨hp, hv, hw⟩ := h3
  obtain ⟨pfit, hpfit⟩ := Option.isSome_iff_exists.mp hp
  obtain ⟨vfit, hvfit⟩ := Option.isSome_iff_exists.mp hv
  obtain ⟨wfit, hwfit⟩ := Option.isSome_iff_exists.mp hw
  constructor
  · refine ⟨ext.splev
        (match kw.WavlCoords with
         | some xc => xc
         | none => ext.legval (npLinspace (-1) 1 RefSpectrum.length) lcref)
        (RefSpectrum.map (fun y => y * params.getD 0 0))
        (ext.legval (npLinspace (-1) 1 RefSpectrum.length)
          (TransformLegendreCoeffs lcref ⟨pfit, vfit, wfit⟩
            (legendreNormPFlag ps))), ?_⟩
    unfold errorfunc_tominimise
    rw [h1, h2]
    simp only [if_pos rfl]
    cases hW : kw.WavlCoords with
    | none => rw [hpfit, hvfit, hwfit]; simp
    | some xc => rw [hpfit, hvfit, hwfit]; simp
  · intro h0
    subst h0
    simp [Real.sqrt_eq_zero', List.map_const']

/-- Witness for C4 with the trivial external interface, no fitted roles,
and `params = [1]`. -/
theorem legendre_residual_structure_witness :
    ((⟨none, some [1], none, some []⟩ : LKwargs).LCRef = some [1] ∧
      (⟨none, some [1], none, some []⟩ : LKwargs).paramstofit = some [] ∧
      rolesOk none [] [1]) ∧
    ((∃ PredictedSpectrum : List ℝ,
      errorfunc_tominimise trivExt [1] ['l'] 0 [] [] none none
          ⟨none, some [1], none, some []⟩
        = .ok (some (sigmaDiv
            (List.zipWith (fun a b => a - b) PredictedSpectrum []) none
          ++ (([1] : List ℝ).drop 1).map (fun t => Real.sqrt (0 * |t|))))) ∧
    ((0 : ℝ) = 0 →
      (([1] : List ℝ).drop 1).map (fun t => Real.sqrt ((0 : ℝ) * |t|))
        = List.replicate (([1] : List ℝ).length - 1) 0)) := by
  have h3 : rolesOk none [] [1] := by
    simp [rolesOk, applyFits, applyFitsAux, initialRoleDict, freshPVWDict,
      dictLookup]
  exact ⟨⟨rfl, rfl, h3⟩,
    legendre_residual_structure trivExt [1] 0 [] [] none none
      ⟨none, some [1], none, some []⟩ [1] [] rfl rfl h3⟩

/-! ### Claim C9: the `ldeg` fallback reads an unbound name -/

/-- Claim C9: when `LCRef` is not supplied in kwargs but `ldeg` and
`WavlCoords` are, the Legendre error function reads the fit degree from
the bare name `ldeg`, which is bound neither in the function's scope nor
at module level, so the branch fails on the unbound name (`NameError`);
in particular the caller-supplied `ldeg` keyword is never read: the
outcome is the same error for every supplied degree value. -/
theorem legendre_errorfunc_ldeg_unbound (ext : ExtLib) (params : List ℝ)
    (Reg : ℝ) (RefSpectrum DataToFit : List ℝ) (sigma : Option (List ℝ))
    (defaultParamDic : Option PyDict) (X : List ℝ) (pf : Option (List Char))
    (d1 d2 : Nat) :
    errorfunc_tominimise ext params ['l'] Reg RefSpectrum DataToFit sigma
        defaultParamDic ⟨some X, none, some d1, pf⟩
      = .error .nameError ∧
    errorfunc_tominimise ext params ['l'] Reg RefSpectrum DataToFit sigma
        defaultParamDic ⟨some X, none, some d1, pf⟩
      = errorfunc_tominimise ext params ['l'] Reg RefSpectrum DataToFit sigma
          defaultParamDic ⟨some X, none, some d2, pf⟩ := by
  constructor
  · unfold errorfunc_tominimise
    simp
  · unfold errorfunc_tominimise
    simp

/-! ### The fit driver: `ReCalibrateDispersionSolution` -/

/-- Python `method[1:].isdigit()`: nonempty and all decimal digits. -/
def isDigitTail (s : List Char) : Bool :=
  !s.isEmpty && s.all (fun c => c.isDigit)

/-- Decimal value of a digit string (Python `int`). -/
def digitsToNat (s : List Char) : Nat :=
  s.foldl (fun a c => 10 * a + (c.toNat - '0'.toNat)) 0

/-- The per-role initial-guess magnitudes `Initp` of line 317; `none`
models a `KeyError` for an unknown role letter. -/
def Initp (c : Char) : Option ℝ :=
  if c = 'v' then some (1e-6) else if c = 'p' then some (1e-6)
  else if c = 'w' then some (1e-3) else none

/-- The per-role optimizer scales `x_scaledic` of line 323. -/
def x_scaledic (c : Char) : Option ℝ :=
  if c = 'v' then some (1e-7) else if c = 'p' then some (1e-6)
  else if c = 'w' then some (1e-3) else none

/-- A list comprehension of dictionary lookups over role letters,
raising `KeyError` at the first unknown role. -/
def roleListLookup (f : Char → Option ℝ) : List Char → Except PyErr (List ℝ)
  | [] => .ok []
  | s :: rest =>
    match f s with
    | none => .error .keyError
    | some v =>
      match roleListLookup f rest with
      | .error e => .error e
      | .ok l => .ok (v :: l)

/-- The value returned by `ReCalibrateDispersionSolution`: wavelength
solution, fitted parameter vector, covariance matrix when `cov` was
requested, and the final state of the caller-supplied default-parameter
dictionary (`none` when the caller supplied none) — making the in-place
mutation of that dictionary an explicit output of the pure model. -/
structure DriverResult where
  wavl_sln : List ℝ
  popt : List ℝ
  pcov : Option (List (List ℝ))
  dpdOut : Option PyDict

/-- The non-digit characters of `method[1:]`: the Legendre roles to fit
(line 310). -/
def lParamString (mrest : List Char) : List Char :=
  mrest.filter (fun s => !s.isDigit)

/-- The digit characters of `method[1:]` (line 311); `int('')` on an
empty result raises `ValueError`. -/
def lDigits (mrest : List Char) : List Char :=
  mrest.filter (fun s => s.isDigit)

/-- Initial guess `p0` of the Legendre branch (lines 319-322). -/
def lBranchP0 (initial_guess : Option (List ℝ)) (paramstring : List Char) :
    Except PyErr (List ℝ) :=
  match initial_guess with
  | some ig => .ok ig
  | none =>
    match roleListLookup Initp paramstring with
    | .error e => .error e
    | .ok l => .ok (1 :: l)

/-- Optimizer `x_scale` of the Legendre branch (lines 323-324). -/
def lBranchXScale (paramstring : List Char) : Except PyErr (List ℝ) :=
  match roleListLookup x_scaledic paramstring with
  | .error e => .error e
  | .ok l => .ok (1 :: l)

/-- The objective closure handed to `scipy.optimize.least_squares`
(lines 325-327): `errorfunc_tominimise` partially applied to the
driver-supplied keyword arguments. -/
def lBranchClosure (ext : ExtLib) (Reg : ℝ) (paramstring : List Char)
    (RefWavl RefFlux SpectrumY : List ℝ) (sigma : Option (List ℝ))
    (LCRef : List ℝ) (PVWdic0 : PyDict) :
    List ℝ → Except PyErr (Option (List ℝ)) :=
  fun ps => errorfunc_tominimise ext ps ['l'] Reg RefFlux SpectrumY sigma
    (some PVWdic0) ⟨some RefWavl, some LCRef, none, some paramstring⟩

/-- Embedding of `ReCalibrateDispersionSolution(SpectrumY, RefSpectrum,
method, initial_guess, sigma, cov, Reg, defaultParamDic, scalepixel)`.
The method-string dispatch, the per-branch initial guesses and closures,
the post-fit reconstruction and the final-state of the caller-supplied
dictionary follow the source line by line; the optimizer status of the
Legendre fit is only printed by the source (line 330), so it appears in
no output of this model.  `scaledWavl` is hoisted out of the two
branches that use it (lines 219-223 compute it for any method starting
with `'p'` or `'c'`). -/
def ReCalibrateDispersionSolution (ext : ExtLib) (SpectrumY : List ℝ)
    (RefSpectrum : List (ℝ × ℝ)) (method : List Char)
    (initial_guess : Option (List ℝ)) (sigma : Option (List ℝ)) (cov : Bool)
    (Reg : ℝ) (defaultParamDic : Option PyDict) (scalepixel : Bool) :
    Except PyErr DriverResult :=
  match method with
  | [] => .error .indexError
  | m0 :: mrest =>
    let RefFlux := RefSpectrum.map Prod.snd
    let RefWavl := RefSpectrum.map Prod.fst
    let scaledWavl :=
      if scalepixel then
        RefWavl.map (fun x =>
          scale_interval_m1top1 x (listMin RefWavl) (listMax RefWavl) false)
      else RefWavl
    if m0 = 'p' ∧ isDigitTail mrest then
      let deg := digitsToNat mrest
      let p0 := match initial_guess with
        | some ig => ig
        | none =>
          if deg > 0 then [1, 0, 1] ++ List.replicate (deg - 1) 0 else [1, 0]
      let fitres := ext.curve_fit
        (fun xdata ps =>
          transformed_spectrum ext xdata ps ['p'] (some scaledWavl) defaultParamDic)
        RefFlux SpectrumY p0 sigma
      let popt := if deg < 1 then fitres.1 ++ [1] else fitres.1
      match update_coeffs_with_defaults (popt.drop 1) defaultParamDic with
      | .error e => .error e
      | .ok coeffs =>
        let transformed_scaledWavl := ext.polyval scaledWavl coeffs
        let wavl_sln :=
          if scalepixel then
            transformed_scaledWavl.map (fun x =>
              scale_interval_m1top1 x (listMin RefWavl) (listMax RefWavl) true)
          else transformed_scaledWavl
        .ok ⟨wavl_sln, popt, if cov then some fitres.2 else none, defaultParamDic⟩
    else if m0 = 'c' ∧ isDigitTail mrest then
      let deg := digitsToNat mrest
      let p0 := match initial_guess with
        | some ig => ig
        | none =>
          if deg > 0 then [1, 0, 1] ++ List.replicate (deg - 1) 0 else [1, 0]
      let fitres := ext.curve_fit
        (fun xdata ps =>
          transformed_spectrum ext xdata ps ['c'] (some scaledWavl) defaultParamDic)
        RefFlux SpectrumY p0 sigma
      let popt := if deg < 1 then fitres.1 ++ [1] else fitres.1
      match update_coeffs_with_defaults (popt.drop 1) defaultParamDic with
      | .error e => .error e
      | .ok coeffs =>
        let transformed_scaledWavl := ext.chebval scaledWavl coeffs
        let wavl_sln :=
          if scalepixel then
            transformed_scaledWavl.map (fun x =>
              scale_interval_m1top1 x (listMin RefWavl) (listMax RefWavl) true)
          else transformed_scaledWavl
        .ok ⟨wavl_sln, popt, if cov then some fitres.2 else none, defaultParamDic⟩
    else if m0 = 'v' then
      let p0 := match initial_guess with
        | some ig => ig
        | none => [1, 100]
      let fitres := ext.curve_fit
        (fun xdata ps =>
          transformed_spectrum ext xdata ps ['v'] (some RefWavl) defaultParamDic)
        RefFlux SpectrumY p0 sigma
      let popt := fitres.1
      let wavl_sln := RefWavl.map (fun x =>
        x * (1 + popt.getD 1 0 / speed_of_light))
      .ok ⟨wavl_sln, popt, if cov then some fitres.2 else none, defaultParamDic⟩
    else if m0 = 'x' then
      let p0 := match initial_guess with
        | some ig => ig
        | none => [1, 100, 0]
      let fitres := ext.curve_fit
        (fun xdata ps =>
          transformed_spectrum ext xdata ps ['x'] (some RefWavl) defaultParamDic)
        RefFlux SpectrumY p0 sigma
      let popt := fitres.1
      let wavl_sln := List.zipWith
        (fun x g => x * (1 + popt.getD 1 0 / speed_of_light) + popt.getD 2 0 * g)
        RefWavl (ext.gradient RefWavl)
      .ok ⟨wavl_sln, popt, if cov then some fitres.2 else none, defaultParamDic⟩
    else if m0 = 'l' then
      let PVWdic0 := initialRoleDict defaultParamDic
      let paramstring := lParamString mrest
      if (lDigits mrest).isEmpty then .error .valueError
      else
        let ldeg := digitsToNat (lDigits mrest)
        let grid := npLinspace (-1) 1 RefWavl.length
        let LCRef := ext.legfit grid RefWavl ldeg
        match lBranchP0 initial_guess paramstring with
        | .error e => .error e
        | .ok p0 =>
          match lBranchXScale paramstring with
          | .error e => .error e
          | .ok x_scale =>
            let fitoutput := ext.least_squares
              (lBranchClosure ext Reg paramstring RefWavl RefFlux SpectrumY
                sigma LCRef PVWdic0) p0 x_scale
            let popt := fitoutput.x
            let pcov := if cov then some (ext.calc_cov fitoutput) else none
            let PVWdic1 := applyFits PVWdic0 paramstring popt
            let normP := legendreNormPFlag paramstring
            match dictLookup PVWdic1 (.role 'p'), dictLookup PVWdic1 (.role 'v'),
                dictLookup PVWdic1 (.role 'w') with
            | some pfit, some vfit, some wfit =>
              let LCnew := TransformLegendreCoeffs LCRef ⟨pfit, vfit, wfit⟩ normP
              let wavl_sln := ext.legval grid LCnew
              .ok ⟨wavl_sln, popt, pcov,
                if defaultParamDic.isSome then some PVWdic1 else none⟩
            | _, _, _ => .error .keyError
    else .error .notImplemented

/-! ### Lemmas about the fitted-role dictionary updates -/

theorem applyFitsAux_lookup_notmem (popt : List ℝ) (i : Nat) (d : PyDict)
    (ps : List Char) (k : PyKey) (h : ∀ s ∈ ps, k ≠ .role s) :
    dictLookup (applyFitsAux popt i d ps) k = dictLookup d k := by
  induction ps generalizing i d with
  | nil => rfl
  | cons a rest ih =>
    show dictLookup (applyFitsAux popt (i + 1)
      (dictSet d (.role a) (popt.getD (i + 1) 0)) rest) k = dictLookup d k
    rw [ih (i + 1) _ (fun s hs => h s (List.mem_cons_of_mem a hs))]
    exact dictLookup_dictSet_ne d (.role a) k _ (h a (List.mem_cons_self a rest))

theorem applyFitsAux_lookup_get (popt : List ℝ) (ps : List Char)
    (i : Nat) (d : PyDict) (hnd : ps.Nodup) (j : Nat) (s : Char)
    (hget : ps.get? j = some s) :
    dictLookup (applyFitsAux popt i d ps) (.role s)
      = some (popt.getD (i + j + 1) 0) := by
  induction ps generalizing i d j with
  | nil => cases hget
  | cons a rest ih =>
    cases j with
    | zero =>
      have ha : a = s := by
        simpa using hget
      subst ha
      show dictLookup (applyFitsAux popt (i + 1)
        (dictSet d (.role a) (popt.getD (i + 1) 0)) rest) (.role a) = _
      have hnotmem : ∀ s' ∈ rest, (PyKey.role a) ≠ .role s' := by
        intro s' hs' hcontra
        have : a = s' := by injection hcontra
        exact (List.nodup_cons.mp hnd).1 (this ▸ hs')
      rw [applyFitsAux_lookup_notmem popt (i + 1) _ rest _ hnotmem,
        dictLookup_dictSet_self]
    | succ j' =>
      have hget' : rest.get? j' = some s := by
        simpa using hget
      show dictLookup (applyFitsAux popt (i + 1)
        (dictSet d (.role a) (popt.getD (i + 1) 0)) rest) (.role s) = _
      rw [ih (i + 1) _ (List.nodup_cons.mp hnd).2 j' hget']
      congr 2
      omega

theorem applyFitsAux_lookup_isSome_mono (popt : List ℝ) (i : Nat)
    (d : PyDict) (ps : List Char) (k : PyKey)
    (h : (dictLookup d k).isSome) :
    (dictLookup (applyFitsAux popt i d ps) k).isSome := by
  induction ps generalizing i d with
  | nil => exact h
  | cons a rest ih =>
    exact ih (i + 1) _ (dictLookup_dictSet_isSome d (.role a) k _ h)

theorem applyFitsAux_lookup_isSome_of_mem (popt : List ℝ) (i : Nat)
    (d : PyDict) (ps : List Char) (s : Char) (h : s ∈ ps) :
    (dictLookup (applyFitsAux popt i d ps) (.role s)).isSome := by
  induction ps generalizing i d with
  | nil => cases h
  | cons a rest ih =>
    by_cases hs : s ∈ rest
    · exact ih (i + 1) _ hs
    · have ha : a = s := by
        cases List.mem_cons.mp h with
        | inl h' => exact h'.symm
        | inr h' => exact absurd h' hs
      subst ha
      refine applyFitsAux_lookup_isSome_mono popt (i + 1) _ rest _ ?_
      rw [dictLookup_dictSet_self]
      rfl

/-! ### Evaluation of the Legendre branch of the driver -/

/-- The `least_squares` fit output of the Legendre branch, as the driver
computes it (lines 325-329), named so that the theorems below can speak
about the optimizer's best-found parameter vector. -/
def lBranchFit (ext : ExtLib) (SpectrumY : List ℝ)
    (RefSpectrum : List (ℝ × ℝ)) (mrest : List Char)
    (sigma : Option (List ℝ)) (Reg : ℝ) (defaultParamDic : Option PyDict)
    (p0 x_scale : List ℝ) : LsqResult :=
  ext.least_squares
    (lBranchClosure ext Reg (lParamString mrest) (RefSpectrum.map Prod.fst)
      (RefSpectrum.map Prod.snd) SpectrumY sigma
      (ext.legfit (npLinspace (-1) 1 (RefSpectrum.map Prod.fst).length)
        (RefSpectrum.map Prod.fst) (digitsToNat (lDigits mrest)))
      (initialRoleDict defaultParamDic)) p0 x_scale

theorem lBranch_eval (ext : ExtLib) (SpectrumY : List ℝ)
    (RefSpectrum : List (ℝ × ℝ)) (mrest : List Char)
    (initial_guess : Option (List ℝ)) (sigma : Option (List ℝ)) (cov : Bool)
    (Reg : ℝ) (defaultParamDic : Option PyDict) (scalepixel : Bool)
    (p0 x_scale : List ℝ) (pfit vfit wfit : ℝ)
    (hdig : (lDigits mrest).isEmpty = false)
    (hp0 : lBranchP0 initial_guess (lParamString mrest) = .ok p0)
    (hxs : lBranchXScale (lParamString mrest) = .ok x_scale)
    (hp : dictLookup (applyFits (initialRoleDict defaultParamDic)
        (lParamString mrest)
        (lBranchFit ext SpectrumY RefSpectrum mrest sigma Reg defaultParamDic
          p0 x_scale).x) (.role 'p') = some pfit)
    (hv : dictLookup (applyFits (initialRoleDict defaultParamDic)
        (lParamString mrest)
        (lBranchFit ext SpectrumY RefSpectrum mrest sigma Reg defaultParamDic
          p0 x_scale).x) (.role 'v') = some vfit)
    (hw : dictLookup (applyFits (initialRoleDict defaultParamDic)
        (lParamString mrest)
        (lBranchFit ext SpectrumY RefSpectrum mrest sigma Reg defaultParamDic
          p0 x_scale).x) (.role 'w') = some wfit) :
    ReCalibrateDispersionSolution ext SpectrumY RefSpectrum ('l' :: mrest)
      initial_guess sigma cov Reg defaultParamDic scalepixel
      = .ok ⟨ext.legval (npLinspace (-1) 1 (RefSpectrum.map Prod.fst).length)
              (TransformLegendreCoeffs
                (ext.legfit (npLinspace (-1) 1 (RefSpectrum.map Prod.fst).length)
                  (RefSpectrum.map Prod.fst) (digitsToNat (lDigits mrest)))
                ⟨pfit, vfit, wfit⟩ (legendreNormPFlag (lParamString mrest))),
            (lBranchFit ext SpectrumY RefSpectrum mrest sigma Reg
              defaultParamDic p0 x_scale).x,
            if cov then some (ext.calc_cov (lBranchFit ext SpectrumY RefSpectrum
              mrest sigma Reg defaultParamDic p0 x_scale)) else none,
            if defaultParamDic.isSome then
              some (applyFits (initialRoleDict defaultParamDic)
                (lParamString mrest)
                (lBranchFit ext SpectrumY RefSpectrum mrest sigma Reg
                  defaultParamDic p0 x_scale).x)
            else none⟩ := by
  unfold ReCalibrateDispersionSolution
  rw [lBranchFit] at hp hv hw
  simp only [show ('l' : Char) ≠ 'p' by decide, show ('l' : Char) ≠ 'c' by decide,
    show ('l' : Char) ≠ 'v' by decide, show ('l' : Char) ≠ 'x' by decide,
    false_and, if_false, if_neg, ite_false, if_pos rfl, hdig,
    Bool.false_eq_true, hp0, hxs]
  simp only [hp, hv, hw, lBranchFit]
  simp

/-! ### Claim C5: unsupported method selectors fail fast -/

/-- A method selector whose family letter does not match the grammar:
first character not one of 'p','c','v','x','l', or a 'p'/'c' family whose
tail `method[1:]` is not a nonempty digit string. -/
def badMethodFamily (m0 : Char) (mrest : List Char) : Prop :=
  m0 ∉ (['p', 'c', 'v', 'x', 'l'] : List Char) ∨
  ((m0 = 'p' ∨ m0 = 'c') ∧ ¬ isDigitTail mrest)

/-- Claim C5: for every method-selector string whose family letter does
not match the grammar, the driver raises the unsupported-method error
(`NotImplementedError`).  The result is this error for every
interpretation of the external optimizers — no optimizer is consulted —
and no partial result is produced. -/
theorem unsupported_method_error (ext : ExtLib) (SpectrumY : List ℝ)
    (RefSpectrum : List (ℝ × ℝ)) (m0 : Char) (mrest : List Char)
    (initial_guess : Option (List ℝ)) (sigma : Option (List ℝ)) (cov : Bool)
    (Reg : ℝ) (defaultParamDic : Option PyDict) (scalepixel : Bool)
    (hbad : badMethodFamily m0 mrest) :
    ReCalibrateDispersionSolution ext SpectrumY RefSpectrum (m0 :: mrest)
      initial_guess sigma cov Reg defaultParamDic scalepixel
      = .error .notImplemented := by
  unfold ReCalibrateDispersionSolution
  rcases hbad with hno | ⟨hpc, hdig⟩
  · simp only [List.mem_cons, List.not_mem_nil, or_false] at hno
    push_neg at hno
    obtain ⟨hp, hc, hv, hx, hl⟩ := hno
    simp [hp, hc, hv, hx, hl]
  · rcases hpc with hp | hc
    · subst hp
      simp [hdig, show ('p' : Char) ≠ 'c' by decide,
        show ('p' : Char) ≠ 'v' by decide, show ('p' : Char) ≠ 'x' by decide,
        show ('p' : Char) ≠ 'l' by decide]
    · subst hc
      simp [hdig, show ('c' : Char) ≠ 'p' by decide,
        show ('c' : Char) ≠ 'v' by decide, show ('c' : Char) ≠ 'x' by decide,
        show ('c' : Char) ≠ 'l' by decide]

/-- Witness for C5 at the method string `"q"`. -/
theorem unsupported_method_error_witness :
    badMethodFamily 'q' [] ∧
      ReCalibrateDispersionSolution trivExt [] [] ['q'] none none false 0 none
        true = .error .notImplemented :=
  ⟨Or.inl (by decide),
    unsupported_method_error trivExt [] [] 'q' [] none none false 0 none true
      (Or.inl (by decide))⟩

/-! ### Claim C10: 'v' and 'x' dispatch on the first character only -/

/-- Claim C10: the driver dispatches the 'v' and 'x' families on the
first character of the method string only: for every trailing string `t`,
the call with method `'v' :: t` (resp. `'x' :: t`) returns exactly what
the plain `'v'` (resp. `'x'`) method returns — the trailing characters
are silently ignored — and the string is not rejected as unsupported. -/
theorem vx_dispatch_first_char_only (ext : ExtLib) (SpectrumY : List ℝ)
    (RefSpectrum : List (ℝ × ℝ)) (t : List Char)
    (initial_guess : Option (List ℝ)) (sigma : Option (List ℝ)) (cov : Bool)
    (Reg : ℝ) (defaultParamDic : Option PyDict) (scalepixel : Bool) :
    (ReCalibrateDispersionSolution ext SpectrumY RefSpectrum ('v' :: t)
        initial_guess sigma cov Reg defaultParamDic scalepixel
      = ReCalibrateDispersionSolution ext SpectrumY RefSpectrum ['v']
        initial_guess sigma cov Reg defaultParamDic scalepixel) ∧
    (ReCalibrateDispersionSolution ext SpectrumY RefSpectrum ('x' :: t)
        initial_guess sigma cov Reg defaultParamDic scalepixel
      = ReCalibrateDispersionSolution ext SpectrumY RefSpectrum ['x']
        initial_guess sigma cov Reg defaultParamDic scalepixel) ∧
    ReCalibrateDispersionSolution ext SpectrumY RefSpectrum ('v' :: t)
        initial_guess sigma cov Reg defaultParamDic scalepixel
      ≠ .error .notImplemented ∧
    ReCalibrateDispersionSolution ext SpectrumY RefSpectrum ('x' :: t)
        initial_guess sigma cov Reg defaultParamDic scalepixel
      ≠ .error .notImplemented := by
  refine ⟨?_, ?_, ?_, ?_⟩
  · unfold ReCalibrateDispersionSolution
    simp [show ('v' : Char) ≠ 'p' by decide, show ('v' : Char) ≠ 'c' by decide]
  · unfold ReCalibrateDispersionSolution
    simp [show ('x' : Char) ≠ 'p' by decide, show ('x' : Char) ≠ 'c' by decide,
      show ('x' : Char) ≠ 'v' by decide]
  · unfold ReCalibrateDispersionSolution
    simp [show ('v' : Char) ≠ 'p' by decide, show ('v' : Char) ≠ 'c' by decide]
  · unfold ReCalibrateDispersionSolution
    simp [show ('x' : Char) ≠ 'p' by decide, show ('x' : Char) ≠ 'c' by decide,
      show ('x' : Char) ≠ 'v' by decide]

/-! ### Claim C6: optimizer non-convergence handling -/

/-- Replace the status code of every least-squares result of an external
interface, leaving the best-found vector, the Jacobian and every other
external function unchanged. -/
def withStatus (ext : ExtLib) (s : Int) : ExtLib :=
  { ext with least_squares := fun f p0 xs =>
      let r := ext.least_squares f p0 xs
      ⟨r.x, r.jac, s⟩ }

/-- Counterexample to C6 as stated: at this concrete input, two optimizer
runs that differ only in their termination status code (5 versus 0)
produce identical driver return values, so the returned value carries no
status code that the caller could inspect. -/
theorem optimizer_status_not_returned :
    ((withStatus trivExt 5).least_squares (fun _ => .ok none) [] []).status = 5 ∧
    (trivExt.least_squares (fun _ => .ok none) [] []).status = 0 ∧
    ReCalibrateDispersionSolution (withStatus trivExt 5) [] [] ['l', 'p', '3']
        none none false 0 none true
      = ReCalibrateDispersionSolution trivExt [] [] ['l', 'p', '3']
        none none false 0 none true :=
  ⟨rfl, rfl, rfl⟩

/-- Claim C6 (amended): whatever status the Legendre-branch optimizer
terminates with, the driver raises nothing and returns the optimizer's
best-found parameter vector `fitoutput['x']`; the status code however is
only printed (source line 330), not returned: the returned value is one
and the same for every status code, so the caller cannot inspect the
status from the driver's return value. -/
theorem legendre_nonconvergence_returns (ext : ExtLib) (SpectrumY : List ℝ)
    (RefSpectrum : List (ℝ × ℝ)) (mrest : List Char)
    (initial_guess : Option (List ℝ)) (sigma : Option (List ℝ))
    (Reg : ℝ) (defaultParamDic : Option PyDict) (scalepixel : Bool)
    (p0 x_scale : List ℝ) (pfit vfit wfit : ℝ)
    (hdig : (lDigits mrest).isEmpty = false)
    (hp0 : lBranchP0 initial_guess (lParamString mrest) = .ok p0)
    (hxs : lBranchXScale (lParamString mrest) = .ok x_scale)
    (hp : dictLookup (applyFits (initialRoleDict defaultParamDic)
        (lParamString mrest)
        (lBranchFit ext SpectrumY RefSpectrum mrest sigma Reg defaultParamDic
          p0 x_scale).x) (.role 'p') = some pfit)
    (hv : dictLookup (applyFits (initialRoleDict defaultParamDic)
        (lParamString mrest)
        (lBranchFit ext SpectrumY RefSpectrum mrest sigma Reg defaultParamDic
          p0 x_scale).x) (.role 'v') = some vfit)
    (hw : dictLookup (applyFits (initialRoleDict defaultParamDic)
        (lParamString mrest)
        (lBranchFit ext SpectrumY RefSpectrum mrest sigma Reg defaultParamDic
          p0 x_scale).x) (.role 'w') = some wfit) :
    ∃ res : DriverResult,
      ReCalibrateDispersionSolution ext SpectrumY RefSpectrum ('l' :: mrest)
        initial_guess sigma false Reg defaultParamDic scalepixel = .ok res ∧
      res.popt = (lBranchFit ext SpectrumY RefSpectrum mrest sigma Reg
        defaultParamDic p0 x_scale).x ∧
      (∀ s : Int,
        ReCalibrateDispersionSolution (withStatus ext s) SpectrumY RefSpectrum
          ('l' :: mrest) initial_guess sigma false Reg defaultParamDic
          scalepixel = .ok res) := by
  refine ⟨_, lBranch_eval ext SpectrumY RefSpectrum mrest initial_guess sigma
      false Reg defaultParamDic scalepixel p0 x_scale pfit vfit wfit hdig hp0
      hxs hp hv hw, rfl, fun s => ?_⟩
  exact lBranch_eval (withStatus ext s) SpectrumY RefSpectrum mrest
    initial_guess sigma false Reg defaultParamDic scalepixel p0 x_scale
    pfit vfit wfit hdig hp0 hxs hp hv hw

/-- Witness for the amended C6 at method `"lp3"` with the trivial external
interface (optimizer returns its initial guess `[1, 1e-6]`). -/
theorem legendre_nonconvergence_returns_witness :
    ((lDigits ['p', '3']).isEmpty = false ∧
      lBranchP0 none (lParamString ['p', '3']) = .ok [1, 1e-6] ∧
      lBranchXScale (lParamString ['p', '3']) = .ok [1, 1e-6] ∧
      dictLookup (applyFits (initialRoleDict none) (lParamString ['p', '3'])
        (lBranchFit trivExt [] [] ['p', '3'] none 0 none [1, 1e-6]
          [1, 1e-6]).x) (.role 'p') = some (1e-6) ∧
      dictLookup (applyFits (initialRoleDict none) (lParamString ['p', '3'])
        (lBranchFit trivExt [] [] ['p', '3'] none 0 none [1, 1e-6]
          [1, 1e-6]).x) (.role 'v') = some 0 ∧
      dictLookup (applyFits (initialRoleDict none) (lParamString ['p', '3'])
        (lBranchFit trivExt [] [] ['p', '3'] none 0 none [1, 1e-6]
          [1, 1e-6]).x) (.role 'w') = some 0) ∧
    (∃ res : DriverResult,
      ReCalibrateDispersionSolution trivExt [] [] ('l' :: ['p', '3'])
        none none false 0 none true = .ok res ∧
      res.popt = (lBranchFit trivExt [] [] ['p', '3'] none 0 none
        [1, 1e-6] [1, 1e-6]).x ∧
      (∀ s : Int,
        ReCalibrateDispersionSolution (withStatus trivExt s) [] []
          ('l' :: ['p', '3']) none none false 0 none true = .ok res)) :=
  ⟨⟨rfl, rfl, rfl, rfl, rfl, rfl⟩,
    legendre_nonconvergence_returns trivExt [] [] ['p', '3'] none none 0 none
      true [1, 1e-6] [1, 1e-6] (1e-6) 0 0 rfl rfl rfl rfl rfl rfl⟩

/-! ### Claim C8: in-place mutation of the caller's default-parameter map -/

/-- Claim C8: for Legendre methods with a caller-supplied
default-parameter dictionary, the driver returns (as the model's explicit
dictionary-state output `dpdOut`) the caller's dictionary updated in
place: the entry of the fitted role at position `j` of the role string
holds the fitted value `popt[j+1]`, every key outside the fitted roles is
unchanged, and nothing else of the caller-visible state is produced or
modified by the model. -/
theorem legendre_defaultParamDic_mutation (ext : ExtLib) (SpectrumY : List ℝ)
    (RefSpectrum : List (ℝ × ℝ)) (mrest : List Char)
    (initial_guess : Option (List ℝ)) (sigma : Option (List ℝ)) (Reg : ℝ)
    (scalepixel : Bool) (d : PyDict) (p0 x_scale : List ℝ)
    (hdig : (lDigits mrest).isEmpty = false)
    (hp0 : lBranchP0 initial_guess (lParamString mrest) = .ok p0)
    (hxs : lBranchXScale (lParamString mrest) = .ok x_scale)
    (hnd : (lParamString mrest).Nodup)
    (hroles : ∀ c ∈ (['p', 'v', 'w'] : List Char),
      (dictLookup d (.role c)).isSome ∨ c ∈ lParamString mrest) :
    ∃ res : DriverResult,
      ReCalibrateDispersionSolution ext SpectrumY RefSpectrum ('l' :: mrest)
        initial_guess sigma false Reg (some d) scalepixel = .ok res ∧
      res.dpdOut = some (applyFits d (lParamString mrest) res.popt) ∧
      (∀ j s, (lParamString mrest).get? j = some s →
        dictLookup (applyFits d (lParamString mrest) res.popt) (.role s)
          = some (res.popt.getD (j + 1) 0)) ∧
      (∀ k : PyKey, (∀ s ∈ lParamString mrest, k ≠ .role s) →
        dictLookup (applyFits d (lParamString mrest) res.popt) k
          = dictLookup d k) := by
  have hsome : ∀ c ∈ (['p', 'v', 'w'] : List Char),
      (dictLookup (applyFits d (lParamString mrest)
        (lBranchFit ext SpectrumY RefSpectrum mrest sigma Reg (some d)
          p0 x_scale).x) (.role c)).isSome := by
    intro c hc
    rcases hroles c hc with hin | hmem
    · exact applyFitsAux_lookup_isSome_mono _ 0 _ _ _ hin
    · exact applyFitsAux_lookup_isSome_of_mem _ 0 _ _ _ hmem
  obtain ⟨pfit, hp⟩ := Option.isSome_iff_exists.mp (hsome 'p' (by simp))
  obtain ⟨vfit, hv⟩ := Option.isSome_iff_exists.mp (hsome 'v' (by simp))
  obtain ⟨wfit, hw⟩ := Option.isSome_iff_exists.mp (hsome 'w' (by simp))
  refine ⟨_, lBranch_eval ext SpectrumY RefSpectrum mrest initial_guess sigma
      false Reg (some d) scalepixel p0 x_scale pfit vfit wfit hdig hp0 hxs
      hp hv hw, rfl, fun j s hget => ?_, fun k hk => ?_⟩
  · have := applyFitsAux_lookup_get
      ((lBranchFit ext SpectrumY RefSpectrum mrest sigma Reg (some d)
        p0 x_scale).x) (lParamString mrest) 0 d hnd j s hget
    simpa using this
  · exact applyFitsAux_lookup_notmem _ 0 _ _ _ hk

/-- Witness for C8 at method `"lp3"` with the caller-supplied dictionary
`{'p': 2, 'v': 3, 'w': 4}`. -/
theorem legendre_defaultParamDic_mutation_witness :
    ((lDigits ['p', '3']).isEmpty = false ∧
      lBranchP0 none (lParamString ['p', '3']) = .ok [1, 1e-6] ∧
      lBranchXScale (lParamString ['p', '3']) = .ok [1, 1e-6] ∧
      (lParamString ['p', '3']).Nodup ∧
      (∀ c ∈ (['p', 'v', 'w'] : List Char),
        (dictLookup [(PyKey.role 'p', (2 : ℝ)), (.role 'v', 3), (.role 'w', 4)]
          (.role c)).isSome ∨ c ∈ lParamString ['p', '3'])) ∧
    (∃ res : DriverResult,
      ReCalibrateDispersionSolution trivExt [] [] ('l' :: ['p', '3'])
        none none false 0
        (some [(PyKey.role 'p', (2 : ℝ)), (.role 'v', 3), (.role 'w', 4)])
        true = .ok res ∧
      res.dpdOut = some (applyFits
        [(PyKey.role 'p', (2 : ℝ)), (.role 'v', 3), (.role 'w', 4)]
        (lParamString ['p', '3']) res.popt) ∧
      (∀ j s, (lParamString ['p', '3']).get? j = some s →
        dictLookup (applyFits
          [(PyKey.role 'p', (2 : ℝ)), (.role 'v', 3), (.role 'w', 4)]
          (lParamString ['p', '3']) res.popt) (.role s)
          = some (res.popt.getD (j + 1) 0)) ∧
      (∀ k : PyKey, (∀ s ∈ lParamString ['p', '3'], k ≠ .role s) →
        dictLookup (applyFits
          [(PyKey.role 'p', (2 : ℝ)), (.role 'v', 3), (.role 'w', 4)]
          (lParamString ['p', '3']) res.popt) k
          = dictLookup
            [(PyKey.role 'p', (2 : ℝ)), (.role 'v', 3), (.role 'w', 4)] k)) :=
  ⟨⟨rfl, rfl, rfl, by decide, by decide⟩,
    legendre_defaultParamDic_mutation trivExt [] [] ['p', '3'] none none 0
      true [(PyKey.role 'p', (2 : ℝ)), (.role 'v', 3), (.role 'w', 4)]
      [1, 1e-6] [1, 1e-6] rfl rfl rfl (by decide) (by decide)⟩
